import Mathlib

/-!
# Verification development for `httpd.c`

A shallow embedding of the request parser (`parse_request` and the helpers
it is built from) and of one cycle of `worker_routine`, followed by the
theorems that settle the specification claims.

Conventions of the embedding.

* A C string (`char *` that is not NULL) is the `List Char` of the bytes
  that precede its terminating NUL.  A `char *` that may be NULL is an
  `Option (List Char)`.
* `strsep` overwrites the delimiter with NUL and moves the cursor: the
  model returns the token and the new cursor.
* `status_t` is `int`; the enumerators keep their numeric values.
* Code that runs into undefined behaviour (a NULL pointer handed to
  `strchr`, a read past the end of `msg`) yields `exec.undefined`.
* `worker_routine` hands the array `msg` to `parse_request` as it is.  An
  array filled to its last byte holds no NUL: the parser then works on the
  bare array and is defined as long as every scan meets what it looks for
  inside the array.
-/

namespace Httpd

/-! ## Parameters and data model -/

/-- Size of the connection buffer `msg`. -/
def MAXMSG : Nat := 1024

/-- Size of `http_request_t.path`. -/
def MAXPATH : Nat := 1024

abbrev status_t := Int

def STATUS_OK : status_t := 200
def STATUS_BAD_REQUEST : status_t := 400
def STATUS_FORBIDDEN : status_t := 403
def STATUS_NOT_FOUND : status_t := 404
def STATUS_REQUEST_TIMEOUT : status_t := 408
def STATUS_REQUEST_TOO_LARGE : status_t := 413
def STATUS_SERVER_ERROR : status_t := 500

inductive http_method_t where
  | GET
  | HEAD
deriving DecidableEq, Repr

inductive content_type_t where
  | APPLICATION
  | AUDIO
  | IMAGE
  | MESSAGE
  | MULTIPART
  | TEXT
  | VIDEO
deriving DecidableEq, Repr

structure http_request_t where
  method : http_method_t
  path : List Char
  type : content_type_t
  protocol_version : Int
deriving DecidableEq, Repr

/-- Result of running a piece of code that may leave defined behaviour.
`out_of_fuel` only exists because loops are unrolled with a bound. -/
inductive exec (α : Type) where
  | done (a : α)
  | undefined
  | out_of_fuel
deriving DecidableEq, Repr

/-! ## String helpers of the C library -/

/-- The C function `strchr(s, c)` for `c` other than NUL: offset of the first
occurrence of `c`, or NULL. -/
def strchr : List Char → Char → Option Nat
  | [], _ => none
  | x :: xs, c => if x = c then some 0 else (strchr xs c).map (· + 1)

/-- The C comparison `p < q` between results of `strchr` on one string.  A
NULL pointer is address 0 and lies below every object. -/
def ptr_lt : Option Nat → Option Nat → Bool
  | none, none => false
  | none, some _ => true
  | some _, none => false
  | some a, some b => decide (a < b)

/-- Scan of `strsep` over a non-NULL cursor: the token, and the cursor after
the delimiter that ended it (NULL when the string ended first). -/
def strsep_scan (delim : List Char) : List Char → List Char × Option (List Char)
  | [] => ([], none)
  | c :: cs =>
    if c ∈ delim then ([], some cs)
    else ((c :: (strsep_scan delim cs).1), (strsep_scan delim cs).2)

/-- The C function `strsep(&s, delim)`: returns the token and the new `*s`. -/
def strsep (s : Option (List Char)) (delim : List Char) :
    Option (List Char) × Option (List Char) :=
  match s with
  | none => (none, none)
  | some str => (some (strsep_scan delim str).1, (strsep_scan delim str).2)

/-- The C function `strstr(hay, needle)`: the tail of `hay` at the first
occurrence of `needle`, or NULL. -/
def strstr (hay needle : List Char) : Option (List Char) :=
  match hay with
  | [] => if needle = [] then some [] else none
  | c :: cs => if needle.isPrefixOf (c :: cs) then some (c :: cs) else strstr cs needle

/-! ## Parsing helpers (`httpd.c`, lines 73-204) -/

def type_to_str (type : content_type_t) : List Char :=
  match type with
  | content_type_t.APPLICATION => "application".toList
  | content_type_t.AUDIO => "audio".toList
  | content_type_t.IMAGE => "image".toList
  | content_type_t.MESSAGE => "message".toList
  | content_type_t.MULTIPART => "multipart".toList
  | content_type_t.TEXT => "text".toList
  | content_type_t.VIDEO => "video".toList

def status_to_str (status : status_t) : List Char :=
  if status = STATUS_OK then "OK".toList
  else if status = STATUS_BAD_REQUEST then "Bad Request".toList
  else if status = STATUS_FORBIDDEN then "Forbidden".toList
  else if status = STATUS_NOT_FOUND then "Not Found".toList
  else if status = STATUS_REQUEST_TIMEOUT then "Request Timeout".toList
  else if status = STATUS_REQUEST_TOO_LARGE then "Request Entity Too Large".toList
  else "Internal Server Error".toList

/-- The loop `while (*s && (**s == ' ' || **s == '\t')) (*s)++;`. -/
def skip_whitespace : List Char → List Char
  | [] => []
  | c :: cs => if c = ' ' ∨ c = '\t' then skip_whitespace cs else c :: cs

def strsep_whitespace (s : Option (List Char)) :
    Option (List Char) × Option (List Char) :=
  let ret := strsep s " \t".toList
  (ret.1, ret.2.map skip_whitespace)

/-- `strsep_newline`.  `strchr(*s, ...)` on a NULL `*s` is undefined. -/
def strsep_newline (s : Option (List Char)) :
    exec (Option (List Char) × Option (List Char)) :=
  match s with
  | none => .undefined
  | some str =>
    let r := strchr str '\r'
    let n := strchr str '\n'
    if r = none ∨ ptr_lt n r = true then
      .done (strsep (some str) "\n".toList)
    else
      let ret := strsep (some str) "\r".toList
      .done (ret.1, ret.2.map (List.drop 1))

def parse_method (token : List Char) (request : http_request_t) :
    status_t × http_request_t :=
  if token = "GET".toList then (STATUS_OK, { request with method := .GET })
  else if token = "HEAD".toList then (STATUS_OK, { request with method := .HEAD })
  else (STATUS_BAD_REQUEST, request)

/-- `snprintf(request->path, MAXPATH, "%s/index.html", DOCUMENT_ROOT)`: at most
`MAXPATH - 1` characters are stored. -/
def parse_path (DOCUMENT_ROOT : List Char) (token : List Char) (request : http_request_t) :
    status_t × http_request_t :=
  if token = "/".toList ∨ token = "/index.html".toList then
    (STATUS_OK,
      { request with
        path := (DOCUMENT_ROOT ++ "/index.html".toList).take (MAXPATH - 1)
        type := .TEXT })
  else (STATUS_NOT_FOUND, request)

def parse_protocol_version (token : List Char) (request : http_request_t) :
    status_t × http_request_t :=
  if token = "HTTP/1.0".toList then (STATUS_OK, { request with protocol_version := 0 })
  else if token = "HTTP/1.1".toList then (STATUS_OK, { request with protocol_version := 1 })
  else (STATUS_BAD_REQUEST, request)

def parse_initial_line (DOCUMENT_ROOT : List Char) (line : List Char)
    (request : http_request_t) : status_t × http_request_t :=
  match strsep_whitespace (some line) with
  | (none, _) => (STATUS_BAD_REQUEST, request)
  | (some token, line) =>
    let m := parse_method token request
    if m.1 ≠ STATUS_OK then m
    else
      match strsep_whitespace line with
      | (none, _) => (STATUS_BAD_REQUEST, m.2)
      | (some token, line) =>
        let p := parse_path DOCUMENT_ROOT token m.2
        if p.1 ≠ STATUS_OK then p
        else
          match strsep_whitespace line with
          | (none, _) => (STATUS_BAD_REQUEST, p.2)
          | (some token, _) =>
            let v := parse_protocol_version token p.2
            if v.1 ≠ STATUS_OK then v
            else (STATUS_OK, v.2)

/-- `parse_header` ignores both arguments. -/
def parse_header (_line : List Char) (_request : http_request_t) : status_t :=
  STATUS_OK

/-- The loop `while ((line = strsep_newline(&msg)) != NULL && *line != 0)` of
`parse_request`, unrolled at most `fuel` times. -/
def header_loop (request : http_request_t) : Nat → Option (List Char) → exec status_t
  | 0, _ => .out_of_fuel
  | fuel + 1, msg =>
    match strsep_newline msg with
    | .undefined => .undefined
    | .out_of_fuel => .out_of_fuel
    | .done (none, _) => .done STATUS_OK
    | .done (some line, msg) =>
      if line = [] then .done STATUS_OK
      else if parse_header line request ≠ STATUS_OK then .done (parse_header line request)
      else header_loop request fuel msg

/-- `parse_request(msg, request)`: the status returned and the request as the
call leaves it. -/
def parse_request (DOCUMENT_ROOT : List Char) (msg : List Char) (request : http_request_t) :
    exec (status_t × http_request_t) :=
  match strsep_newline (some msg) with
  | .undefined => .undefined
  | .out_of_fuel => .out_of_fuel
  | .done (none, _) => .done (STATUS_BAD_REQUEST, request)
  | .done (some line, rest) =>
    let i := parse_initial_line DOCUMENT_ROOT line request
    if i.1 ≠ STATUS_OK then .done i
    else
      match header_loop i.2 (msg.length + 1) rest with
      | .undefined => .undefined
      | .out_of_fuel => .out_of_fuel
      | .done s => if s ≠ STATUS_OK then .done (s, i.2) else .done (STATUS_OK, i.2)

/-! ## One cycle of `worker_routine` (`httpd.c`, lines 278-371) -/

/-- Linux value of `EAGAIN` in `errno.h` (the program uses `epoll`). -/
def EAGAIN : Int := 11

/-- Linux value of `EWOULDBLOCK` in `errno.h`. -/
def EWOULDBLOCK : Int := 11

/-- Values of `sys/epoll.h`. -/
def EPOLL_CTL_MOD : Nat := 3
def EPOLLIN : Nat := 1
def EPOLLET : Nat := 2 ^ 31
def EPOLLONESHOT : Nat := 2 ^ 30

/-- One call `recv(connfd, msg + recv_bytes, MAXMSG - recv_bytes, 0)`, as the
socket answers it. -/
inductive recv_t where
  /-- These bytes are pending: as many as fit are stored, `len` is their number. -/
  | data (bytes : List Char)
  /-- The call returns 0 and leaves `errno` alone. -/
  | zero
  /-- The call returns -1 and sets `errno`. -/
  | fail (errno : Int)
deriving DecidableEq, Repr

/-- How the loop "until full HTTP msg is received" is left. -/
inductive accum_t where
  /-- The loop condition became false; `received` are the `recv_bytes` bytes
  stored at the start of `msg`. -/
  | complete (received : List Char)
  /-- Path `close(connfd); goto loopstart;`. -/
  | closed
  /-- Path `status = STATUS_SERVER_ERROR; ... goto send;`. -/
  | failed
  /-- Path `abort();`. -/
  | aborted
deriving DecidableEq, Repr

/-- The C call `strndup(msg, recv_bytes)`: the copy stops at a NUL. -/
def strndup (msg : List Char) (n : Nat) : List Char :=
  (msg.take n).takeWhile (fun c => c ≠ '\x00')

/-- The array `msg` after `memset(msg, 0, MAXMSG)` and the receipt of `received`. -/
def msg_buffer (received : List Char) : List Char :=
  received ++ List.replicate (MAXMSG - received.length) '\x00'

/-- Condition of the accumulation loop, `received` being the `recv_bytes` bytes
stored so far. -/
def loop_cond (received : List Char) : Bool :=
  strstr (strndup (msg_buffer received) received.length) "\r\n\r\n".toList = none &&
  strstr (strndup (msg_buffer received) received.length) "\n\n".toList = none &&
  decide (received.length < MAXMSG)

/-- Body of `if ((len = recv(...)) <= 0)` for `len <= 0`. -/
def recv_nonpositive (len : Int) (errno : Int) : accum_t :=
  if errno = EAGAIN then .aborted
  else if len = 0 then .closed
  else if errno = EWOULDBLOCK then .aborted
  else .failed

/-- The accumulation loop.  The list gives the answers of the successive `recv`
calls; when it is used up the non-blocking socket has nothing more to deliver
and `recv` fails with `EAGAIN`.  `errno` is the value `errno` has on entry. -/
def accumulate : List recv_t → Int → List Char → accum_t
  | [], _, received =>
    if loop_cond received then recv_nonpositive (-1) EAGAIN
    else .complete received
  | ev :: evs, errno, received =>
    if loop_cond received then
      match ev with
      | .data bytes =>
        let chunk := bytes.take (MAXMSG - received.length)
        if (chunk.length : Int) ≤ 0 then recv_nonpositive chunk.length errno
        else accumulate evs errno (received ++ chunk)
      | .zero => recv_nonpositive 0 errno
      | .fail e => recv_nonpositive (-1) e
    else .complete received

/-- The C string that starts at `buf`, when the array holds a NUL. -/
def c_string (buf : List Char) : Option (List Char) :=
  if '\x00' ∈ buf then some (buf.takeWhile (fun c => c ≠ '\x00')) else none

/-- `strsep_newline` with the cursor in an array that holds no NUL from the
cursor on.  Both `strchr` calls run first: one that does not meet its character
inside the array reads past it.  When both meet it, `strsep` stops at the
nearer of the two and `(*s)++` stays at or before the other, so the call is
the one on the C string `s`. -/
def strsep_newline_raw (s : Option (List Char)) :
    exec (Option (List Char) × Option (List Char)) :=
  match s with
  | none => .undefined
  | some str =>
    if strchr str '\r' = none ∨ strchr str '\n' = none then .undefined
    else strsep_newline (some str)

/-- The header loop of `parse_request` with the cursor in an array that holds
no NUL from the cursor on. -/
def header_loop_raw (request : http_request_t) : Nat → Option (List Char) → exec status_t
  | 0, _ => .out_of_fuel
  | fuel + 1, msg =>
    match strsep_newline_raw msg with
    | .undefined => .undefined
    | .out_of_fuel => .out_of_fuel
    | .done (none, _) => .done STATUS_OK
    | .done (some line, msg) =>
      if line = [] then .done STATUS_OK
      else if parse_header line request ≠ STATUS_OK then .done (parse_header line request)
      else header_loop_raw request fuel msg

/-- `parse_request(msg, request)` on an array `msg` that holds no NUL.  The
lines that `strsep` cuts off are C strings inside the array, so
`parse_initial_line` runs on them as usual. -/
def parse_request_raw (DOCUMENT_ROOT : List Char) (msg : List Char) (request : http_request_t) :
    exec (status_t × http_request_t) :=
  match strsep_newline_raw (some msg) with
  | .undefined => .undefined
  | .out_of_fuel => .out_of_fuel
  | .done (none, _) => .done (STATUS_BAD_REQUEST, request)
  | .done (some line, rest) =>
    let i := parse_initial_line DOCUMENT_ROOT line request
    if i.1 ≠ STATUS_OK then .done i
    else
      match header_loop_raw i.2 (msg.length + 1) rest with
      | .undefined => .undefined
      | .out_of_fuel => .out_of_fuel
      | .done s => if s ≠ STATUS_OK then .done (s, i.2) else .done (STATUS_OK, i.2)

/-- The call `parse_request(msg, request)` of `worker_routine` on the array
`msg`: on the C string in it when the array holds a NUL, else on the bare
array. -/
def parse_buffer (DOCUMENT_ROOT : List Char) (buf : List Char) (request : http_request_t) :
    exec (status_t × http_request_t) :=
  match c_string buf with
  | some msg => parse_request DOCUMENT_ROOT msg request
  | none => parse_request_raw DOCUMENT_ROOT buf request

/-- Conversion `%d` of `printf`. -/
def fmt_d (i : Int) : List Char :=
  match i with
  | .ofNat n => Nat.toDigits 10 n
  | .negSucc n => '-' :: Nat.toDigits 10 (n + 1)

/-- The cast `(int) st.st_size` to a 32-bit `int`. -/
def to_int (x : Int) : Int :=
  (x + 2 ^ 31) % 2 ^ 32 - 2 ^ 31

/-- What the response phase reads from outside the connection. -/
structure env_t where
  /-- Expansion of `%a, %d %b %Y %H:%M:%S` by `strftime` for `gmtime(&now)`. -/
  date : List Char
  /-- Field `st.st_size` after `stat(request->path, &st)`. -/
  st_size : Int
  /-- Blocks returned by the calls `read(file, msg, MAXMSG)` that return more
  than 0 (none when `open` failed). -/
  reads : List (List Char)
deriving DecidableEq, Repr

/-- Operations of the worker on the connection handle `connfd`, in program
order. -/
inductive conn_op where
  /-- The call `epoll_ctl(epollfd, op, connfd, &ev)` with `ev.events = events`. -/
  | epoll_ctl (op : Nat) (events : Nat)
  /-- The call `send(connfd, buf, len, 0)`. -/
  | send (buf : List Char)
  /-- The call `close(connfd)`. -/
  | close
deriving DecidableEq, Repr

/-- `sprintf(msg, "HTTP/1.%d %d %s\r\n", ...)`. -/
def status_line (status : status_t) (request : http_request_t) : List Char :=
  "HTTP/1.".toList ++ fmt_d request.protocol_version ++ " ".toList ++ fmt_d status ++
    " ".toList ++ status_to_str status ++ "\r\n".toList

/-- `strftime(buf, 1024, "Date: %a, %d %b %Y %H:%M:%S GMT\r\n", gmtime(&now))`. -/
def date_line (env : env_t) : List Char :=
  "Date: ".toList ++ env.date ++ " GMT\r\n".toList

/-- `sprintf(msg, "Content-Length: %d\r\n", (int) st.st_size)`. -/
def content_length_line (env : env_t) : List Char :=
  "Content-Length: ".toList ++ fmt_d (to_int env.st_size) ++ "\r\n".toList

/-- `sprintf(msg, "Content-Type: %s\r\n", type_to_str(request->type))`. -/
def content_type_line (request : http_request_t) : List Char :=
  "Content-Type: ".toList ++ type_to_str request.type ++ "\r\n".toList

/-- The code from label `send:` to the end of the loop body. -/
def respond (status : status_t) (request : http_request_t) (env : env_t) : List conn_op :=
  [.send (status_line status request), .send (date_line env)] ++
  (if status = STATUS_OK ∧ request.method = .GET then
    [.send (content_length_line env), .send (content_type_line request)]
   else []) ++
  [.send "\r\n".toList] ++
  (if status = STATUS_OK ∧ request.method = .GET then env.reads.map .send else []) ++
  (if request.protocol_version = 0 ∨ status ≠ STATUS_OK then [.close] else [])

/-- Outcome of one pass through the body of `while (1)`. -/
inductive cycle_t where
  /-- The process was stopped by `abort()`. -/
  | aborted
  /-- The peer had closed: no response, back to `loopstart`. -/
  | dropped (ops : List conn_op)
  /-- The cycle reached `send:` with this status and request. -/
  | responded (status : status_t) (request : http_request_t) (ops : List conn_op)
  /-- The call of `parse_request` left defined behaviour: it read past the
  array `msg` or handed a NULL cursor to `strchr`. -/
  | undefined (ops : List conn_op)
  | out_of_fuel
deriving DecidableEq, Repr

/-- One pass through the body of `while (1)` in `worker_routine`, from
`epoll_wait` on.  `request` is the content of `*request` on entry. -/
def worker_cycle (DOCUMENT_ROOT : List Char) (request : http_request_t) (errno : Int)
    (recvs : List recv_t) (env : env_t) : cycle_t :=
  match accumulate recvs errno [] with
  | .aborted => .aborted
  | .closed => .dropped [.close]
  | .failed =>
    .responded STATUS_SERVER_ERROR request (respond STATUS_SERVER_ERROR request env)
  | .complete received =>
    let rearm := conn_op.epoll_ctl EPOLL_CTL_MOD (EPOLLIN ||| EPOLLET ||| EPOLLONESHOT)
    match parse_buffer DOCUMENT_ROOT (msg_buffer received) request with
    | .undefined => .undefined [rearm]
    | .out_of_fuel => .out_of_fuel
    | .done (status, request) =>
      .responded status request (rearm :: respond status request env)

/-! ## Vocabulary of the specification -/

/-- Space or tab, the separators of the request line. -/
def is_blank (c : Char) : Bool := c == ' ' || c == '\t'

/-- Carriage return or line feed. -/
def is_eol (c : Char) : Bool := c == '\r' || c == '\n'

/-- The blank-line terminator of a request: `\r\n\r\n` or `\n\n` occurs in it. -/
def has_terminator (msg : List Char) : Prop :=
  "\r\n\r\n".toList <:+: msg ∨ "\n\n".toList <:+: msg

/-- The request line of a message: the text before the first CR or LF.  A
message without any LF is one single line. -/
def request_line (msg : List Char) : List Char :=
  if '\n' ∈ msg then msg.takeWhile (fun c => !is_eol c) else msg

/-- What follows the first line: nothing (NULL) in a message without LF; else
the text after the LF that ends the line, or after the CR that ends it and the
one character behind that CR. -/
def after_line (msg : List Char) : Option (List Char) :=
  if '\n' ∈ msg then
    match msg.dropWhile (fun c => !is_eol c) with
    | [] => none
    | c :: rest => if c = '\n' then some rest else some (rest.drop 1)
  else none

/-- First token of a line: the text before the first space or tab. -/
def first_token (line : List Char) : List Char :=
  line.takeWhile (fun c => !is_blank c)

/-- What follows the first token: absent when the line ends with the token,
else the text after the run of spaces and tabs behind it. -/
def after_token (line : List Char) : Option (List Char) :=
  match line.dropWhile (fun c => !is_blank c) with
  | [] => none
  | _ :: rest => some (rest.dropWhile is_blank)

/-- Token number `k` (from 0) of a line split on runs of space and tab; `none`
when the line ended with an earlier token. -/
def token_at : Nat → List Char → Option (List Char)
  | 0, line => some (first_token line)
  | k + 1, line =>
    match after_token line with
    | none => none
    | some rest => token_at k rest

instance (msg : List Char) : Decidable (has_terminator msg) := by
  unfold has_terminator; infer_instance

def supported_method (t : List Char) : Prop := t = "GET".toList ∨ t = "HEAD".toList

def routable_path (t : List Char) : Prop := t = "/".toList ∨ t = "/index.html".toList

def supported_version (t : List Char) : Prop := t = "HTTP/1.0".toList ∨ t = "HTTP/1.1".toList

instance (t : List Char) : Decidable (supported_method t) := by
  unfold supported_method; infer_instance

instance (t : List Char) : Decidable (routable_path t) := by
  unfold routable_path; infer_instance

instance (t : List Char) : Decidable (supported_version t) := by
  unfold supported_version; infer_instance

/-- Status of a request line in the words of the specification: method, path and
version are checked in this order and the first failing check decides. -/
def initial_line_status (line : List Char) : status_t :=
  match token_at 0 line, token_at 1 line, token_at 2 line with
  | none, _, _ => STATUS_BAD_REQUEST
  | some m, p, v =>
    if ¬ supported_method m then STATUS_BAD_REQUEST
    else match p with
      | none => STATUS_BAD_REQUEST
      | some p =>
        if ¬ routable_path p then STATUS_NOT_FOUND
        else match v with
          | none => STATUS_BAD_REQUEST
          | some v => if ¬ supported_version v then STATUS_BAD_REQUEST else STATUS_OK

/-- A request on the wire: the request line, then the header lines, each
followed by the line end `eol`, then a blank line. -/
def wire (eol : List Char) (line : List Char) (headers : List (List Char)) : List Char :=
  line ++ eol ++ (headers.map (fun h => h ++ eol)).flatten ++ eol

/-- Buffers handed to `send`, in order. -/
def sent : List conn_op → List (List Char)
  | [] => []
  | .send buf :: ops => buf :: sent ops
  | _ :: ops => sent ops

/-! ## Concrete inputs used by the evaluations below -/

/-- Content of `*request` as an earlier cycle on an HTTP/1.1 connection may
have left it. -/
def stale_request : http_request_t :=
  { method := .HEAD, path := [], type := .VIDEO, protocol_version := 1 }

def sample_env : env_t :=
  { date := "Sun, 01 Nov 2026 10:00:00".toList
    st_size := 12
    reads := ["hello world\n".toList] }

/-- The handle is re-armed with these arguments before `parse_request` runs. -/
def rearm : conn_op :=
  .epoll_ctl EPOLL_CTL_MOD (EPOLLIN ||| EPOLLET ||| EPOLLONESHOT)

/-- 1024 bytes without NUL and without blank-line terminator. -/
def flood : List Char := List.replicate 1024 'A'

/-- 1024 bytes without blank-line terminator whose 17th byte is NUL. -/
def flood_nul : List Char :=
  "POST / HTTP/1.1\n".toList ++ '\x00' :: List.replicate 1007 'A'

/-- 1024 bytes without NUL that begin with a complete request: the array `msg`
is filled to its last byte. -/
def full_get : List Char :=
  "GET / HTTP/1.1\r\n\r\n".toList ++ List.replicate 1006 'A'

/-- Invariant of the header loop of `parse_request` on the text still to be
split: a terminator lies ahead, or the next line is empty. -/
def loop_inv (s : List Char) : Prop :=
  has_terminator s ∨ "\n".toList <+: s ∨ "\r\n".toList <+: s

/-! ## Lemmas on the string helpers -/

theorem strchr_eq_none_iff (s : List Char) (c : Char) : strchr s c = none ↔ c ∉ s := by
  induction s with
  | nil => simp [strchr]
  | cons x xs ih =>
    by_cases h : x = c
    · simp [strchr, h]
    · have h2 : ¬ c = x := fun e => h e.symm
      simp [strchr, h, h2, ih]

theorem ptr_lt_succ (a b : Option Nat) :
    ptr_lt (a.map (· + 1)) (b.map (· + 1)) = ptr_lt a b := by
  cases a <;> cases b <;> simp [ptr_lt]

/-- The first line the splitter yields and the cursor it leaves. -/
theorem strsep_newline_eq (s : List Char) :
    strsep_newline (some s) = .done (some (request_line s), after_line s) := by
  induction s with
  | nil => simp [strsep_newline, strchr, strsep, strsep_scan, request_line, after_line]
  | cons x xs ih =>
    by_cases hn : x = '\n'
    · subst hn
      have : ptr_lt (some 0) (Option.map (· + 1) (strchr xs '\r')) = true ∨
          strchr xs '\r' = none := by
        cases strchr xs '\r' <;> simp [ptr_lt]
      rcases this with h | h <;>
        simp [strsep_newline, strchr, strsep, strsep_scan, request_line, after_line, is_eol, h]
    · by_cases hr : x = '\r'
      · subst hr
        by_cases hmem : '\n' ∈ xs
        · obtain ⟨j, hj⟩ : ∃ j, strchr xs '\n' = some j := by
            cases h : strchr xs '\n' with
            | none => exact absurd ((strchr_eq_none_iff xs '\n').1 h) (by simpa using hmem)
            | some j => exact ⟨j, rfl⟩
          simp [strsep_newline, strchr, strsep, strsep_scan, request_line, after_line, is_eol,
            hmem, hj, ptr_lt]
        · have hj : strchr xs '\n' = none := (strchr_eq_none_iff xs '\n').2 hmem
          have hscan : ∀ l : List Char, '\n' ∉ l → strsep_scan ['\n'] l = (l, none) := by
            intro l
            induction l with
            | nil => intro _; simp [strsep_scan]
            | cons y ys ihy =>
              intro hy
              have h1 : ¬ y = '\n' := fun e => hy (by simp [e])
              have h2 : '\n' ∉ ys := fun e => hy (by simp [e])
              simp [strsep_scan, h1, ihy h2]
          simp [strsep_newline, strchr, strsep, strsep_scan, request_line, after_line, hmem, hj,
            ptr_lt, hscan xs hmem]
      · have hmem : ('\n' ∈ x :: xs) ↔ '\n' ∈ xs := by
          constructor
          · intro h
            rcases List.mem_cons.1 h with h | h
            · exact absurd h.symm hn
            · exact h
          · intro h; exact List.mem_cons_of_mem _ h
        simp only [strsep_newline, strsep] at ih
        simp only [strsep_newline, strsep, strchr, hn, hr, if_false, ptr_lt_succ,
          Option.map_eq_none']
        by_cases hc : strchr xs '\r' = none ∨ ptr_lt (strchr xs '\n') (strchr xs '\r') = true
        · rw [if_pos hc] at ih ⊢
          have e1 := congrArg (fun e => match e with
            | exec.done (some l, _) => l
            | _ => []) ih
          have e2 := congrArg (fun e => match e with
            | exec.done (_, r) => r
            | _ => none) ih
          simp only at e1 e2
          have hx : ¬ x ∈ "\n".toList := by simpa using hn
          simp only [strsep_scan, hx, if_false, e1, e2]
          simp [request_line, after_line, hmem, is_eol, hn, hr]
          split <;> rfl
        · rw [if_neg hc] at ih ⊢
          have e1 := congrArg (fun e => match e with
            | exec.done (some l, _) => l
            | _ => []) ih
          have e2 := congrArg (fun e => match e with
            | exec.done (_, r) => r
            | _ => none) ih
          simp only at e1 e2
          have hx : ¬ x ∈ "\r".toList := by simpa using hr
          simp only [strsep_scan, hx, if_false, e1, e2]
          simp [request_line, after_line, hmem, is_eol, hn, hr]
          split <;> rfl

theorem skip_whitespace_eq (s : List Char) : skip_whitespace s = s.dropWhile is_blank := by
  induction s with
  | nil => simp [skip_whitespace]
  | cons x xs ih =>
    by_cases h1 : x = ' '
    · simp [skip_whitespace, is_blank, h1, ih]
    · by_cases h2 : x = '\t'
      · simp [skip_whitespace, is_blank, h2, ih]
      · simp [skip_whitespace, is_blank, h1, h2]

/-- The token the whitespace splitter yields and the cursor it leaves. -/
theorem strsep_whitespace_eq (line : List Char) :
    strsep_whitespace (some line) = (some (first_token line), after_token line) := by
  induction line with
  | nil => simp [strsep_whitespace, strsep, strsep_scan, first_token, after_token]
  | cons x xs ih =>
    simp only [strsep_whitespace, strsep, Prod.mk.injEq, Option.some.injEq] at ih
    by_cases h : is_blank x = true
    · have hx : x = ' ' ∨ x = '\t' := by
        simpa only [is_blank, Bool.or_eq_true, beq_iff_eq] using h
      simp [strsep_whitespace, strsep, strsep_scan, first_token, after_token, hx, h,
        skip_whitespace_eq]
    · have hx : ¬ x ∈ " \t".toList := by
        intro hm
        apply h
        simp only [String.toList, List.mem_cons, List.mem_singleton] at hm
        simp only [is_blank, Bool.or_eq_true, beq_iff_eq]
        rcases hm with hm | hm | hm
        · exact Or.inl hm
        · exact Or.inr hm
        · simp at hm
      simp only [strsep_whitespace, strsep, strsep_scan, hx, if_false, ih.1, ih.2]
      simp [first_token, after_token, h]

theorem strsep_whitespace_none : strsep_whitespace none = (none, none) := by
  simp [strsep_whitespace, strsep]

theorem after_line_length (s rest : List Char) (h : after_line s = some rest) :
    rest.length < s.length := by
  unfold after_line at h
  split at h
  · have hlen := congrArg List.length (List.takeWhile_append_dropWhile (fun c => !is_eol c) s)
    simp only [List.length_append] at hlen
    split at h
    · simp at h
    · rename_i c r heq
      rw [heq] at hlen
      simp only [List.length_cons] at hlen
      split at h
      · simp only [Option.some.injEq] at h
        subst h
        omega
      · simp only [Option.some.injEq] at h
        subst h
        simp only [List.length_drop]
        omega
  · simp at h

/-- The bound with which `parse_request` unrolls its loop is never reached. -/
theorem header_loop_fuel (request : http_request_t) (fuel : Nat) (s : Option (List Char))
    (h0 : 0 < fuel) (h : ∀ l, s = some l → l.length < fuel) :
    header_loop request fuel s ≠ .out_of_fuel := by
  induction fuel generalizing s with
  | zero => omega
  | succ f ih =>
    cases s with
    | none => simp [header_loop, strsep_newline]
    | some l =>
      simp only [header_loop, strsep_newline_eq]
      split
      · simp
      · rename_i hne
        simp [parse_header]
        have hl := h l rfl
        have hpos : 0 < l.length := by
          cases l with
          | nil => simp [request_line] at hne
          | cons _ _ => simp
        apply ih
        · omega
        · intro r hr
          have := after_line_length l r hr
          omega

theorem parse_request_fuel (root msg : List Char) (request : http_request_t) :
    parse_request root msg request ≠ .out_of_fuel := by
  simp only [parse_request, strsep_newline_eq]
  split
  · simp
  · have := header_loop_fuel (parse_initial_line root (request_line msg) request).2
      (msg.length + 1) (after_line msg) (by omega) (by
        intro l hl
        have := after_line_length msg l hl
        omega)
    split
    · simp
    · contradiction
    · split <;> simp

/-- Whatever `parse_request` returns is the result of `parse_initial_line` on
the request line. -/
theorem parse_request_done (root msg : List Char) (request : http_request_t)
    (x : status_t × http_request_t) (h : parse_request root msg request = .done x) :
    x = parse_initial_line root (request_line msg) request := by
  simp only [parse_request, strsep_newline_eq] at h
  split at h
  · simpa using h.symm
  · rename_i hok
    simp only [ne_eq, Decidable.not_not] at hok
    split at h
    · simp at h
    · simp at h
    · split at h
      · rename_i s hs hne
        exfalso
        revert hs hne
        generalize (parse_initial_line root (request_line msg) request).2 = rq
        generalize msg.length + 1 = fuel
        generalize after_line msg = cur
        intro hs hne
        induction fuel generalizing cur with
        | zero => simp [header_loop] at hs
        | succ f ih =>
          cases cur with
          | none => simp [header_loop, strsep_newline] at hs
          | some l =>
            simp only [header_loop, strsep_newline_eq] at hs
            split at hs
            · simp only [exec.done.injEq] at hs
              exact hne hs.symm
            · simp only [parse_header, ne_eq, not_true_eq_false, if_false] at hs
              exact ih _ hs
      · simp only [exec.done.injEq] at h
        rw [← h, ← hok]

theorem has_terminator_mem (s : List Char) (h : has_terminator s) : '\n' ∈ s := by
  rcases h with h | h
  · exact h.subset (by simp)
  · exact h.subset (by simp)

theorem request_line_of_mem (s : List Char) (h : '\n' ∈ s) :
    request_line s = s.takeWhile (fun c => !is_eol c) := by
  simp [request_line, h]

/-- One turn of the header loop keeps the invariant. -/
theorem inv_step (s : List Char) (h : has_terminator s) :
    ∃ rest, after_line s = some rest ∧ loop_inv rest := by
  induction s with
  | nil =>
    have := has_terminator_mem [] h
    simp at this
  | cons x xs ih =>
    have hmem := has_terminator_mem _ h
    unfold has_terminator at h
    rw [List.infix_cons_iff, List.infix_cons_iff] at h
    by_cases hn : x = '\n'
    · subst hn
      refine ⟨xs, by simp [after_line, is_eol], ?_⟩
      rcases h with (h | h) | (h | h)
      · obtain ⟨t, ht⟩ := h
        simp at ht
      · exact Or.inl (Or.inl h)
      · obtain ⟨t, ht⟩ := h
        simp only [String.toList, List.cons_append, List.cons.injEq, true_and] at ht
        exact Or.inr (Or.inl ⟨t, by simpa using ht⟩)
      · exact Or.inl (Or.inr h)
    · by_cases hr : x = '\r'
      · subst hr
        have hmem2 : '\n' ∈ xs := by
          rcases List.mem_cons.1 hmem with e | e
          · exact absurd e (by decide)
          · exact e
        refine ⟨xs.drop 1, by simp [after_line, is_eol, hmem2], ?_⟩
        have key : has_terminator xs → loop_inv (xs.drop 1) := by
          intro hx
          cases xs with
          | nil =>
            have := has_terminator_mem [] hx
            simp at this
          | cons y ys =>
            unfold has_terminator at hx
            rw [List.infix_cons_iff, List.infix_cons_iff] at hx
            simp only [List.drop_succ_cons, List.drop_zero]
            rcases hx with (hx | hx) | (hx | hx)
            · obtain ⟨t, ht⟩ := hx
              simp only [String.toList, List.cons_append, List.cons.injEq] at ht
              exact Or.inr (Or.inl ⟨'\r' :: '\n' :: t, by simpa using ht.2⟩)
            · exact Or.inl (Or.inl hx)
            · obtain ⟨t, ht⟩ := hx
              simp only [String.toList, List.cons_append, List.cons.injEq] at ht
              exact Or.inr (Or.inl ⟨t, by simpa using ht.2⟩)
            · exact Or.inl (Or.inr hx)
        rcases h with (h | h) | (h | h)
        · obtain ⟨t, ht⟩ := h
          simp only [String.toList, List.cons_append, List.cons.injEq, true_and] at ht
          refine Or.inr (Or.inr ⟨t, ?_⟩)
          rw [← ht]
          simp
        · exact key (Or.inl h)
        · obtain ⟨t, ht⟩ := h
          simp at ht
        · exact key (Or.inr h)
      · have hx : has_terminator xs := by
          rcases h with (h | h) | (h | h)
          · obtain ⟨t, ht⟩ := h
            simp only [String.toList, List.cons_append, List.cons.injEq] at ht
            exact absurd ht.1.symm hr
          · exact Or.inl h
          · obtain ⟨t, ht⟩ := h
            simp only [String.toList, List.cons_append, List.cons.injEq] at ht
            exact absurd ht.1.symm hn
          · exact Or.inr h
        obtain ⟨rest, hrest, hinv⟩ := ih hx
        refine ⟨rest, ?_, hinv⟩
        rw [← hrest]
        have hn2 : ¬ '\n' = x := fun e => hn e.symm
        simp [after_line, is_eol, hn, hr, hn2]

/-- From a text that satisfies the invariant the header loop ends at an empty
line, with status OK and without touching a NULL cursor. -/
theorem header_loop_inv (request : http_request_t) (fuel : Nat) (s : List Char)
    (hinv : loop_inv s) (hf : s.length < fuel) :
    header_loop request fuel (some s) = .done STATUS_OK := by
  induction fuel generalizing s with
  | zero => omega
  | succ f ih =>
    simp only [header_loop, strsep_newline_eq]
    split
    · rfl
    · rename_i hne
      simp only [parse_header, ne_eq, not_true_eq_false, if_false]
      rcases hinv with h | h | h
      · obtain ⟨rest, hrest, hinv2⟩ := inv_step s h
        rw [hrest]
        apply ih rest hinv2
        have := after_line_length s rest hrest
        omega
      · exfalso
        apply hne
        obtain ⟨t, ht⟩ := h
        rw [← ht]
        simp [request_line, is_eol]
      · exfalso
        apply hne
        obtain ⟨t, ht⟩ := h
        rw [← ht]
        simp [request_line, is_eol]

/-- A message with a blank-line terminator is parsed to the end, and the
result is that of its first line. -/
theorem parse_request_eq (root msg : List Char) (request : http_request_t)
    (h : has_terminator msg) :
    parse_request root msg request =
      .done (parse_initial_line root (msg.takeWhile (fun c => !is_eol c)) request) := by
  have hmem := has_terminator_mem msg h
  obtain ⟨rest, hrest, hinv⟩ := inv_step msg h
  have hlen := after_line_length msg rest hrest
  simp only [parse_request, strsep_newline_eq, request_line_of_mem msg hmem, hrest]
  split
  · rfl
  · rename_i hok
    simp only [ne_eq, Decidable.not_not] at hok
    rw [header_loop_inv _ _ rest hinv (by omega)]
    simp only [ne_eq, not_true_eq_false, if_false]
    rw [← hok]

/-- The three steps of `parse_initial_line` in terms of the tokens of the line. -/
theorem parse_initial_line_tokens (root line : List Char) (request : http_request_t) :
    parse_initial_line root line request =
      if (parse_method (first_token line) request).1 ≠ STATUS_OK then
        parse_method (first_token line) request
      else
        match token_at 1 line with
        | none => (STATUS_BAD_REQUEST, (parse_method (first_token line) request).2)
        | some p =>
          if (parse_path root p (parse_method (first_token line) request).2).1 ≠ STATUS_OK then
            parse_path root p (parse_method (first_token line) request).2
          else
            match token_at 2 line with
            | none =>
              (STATUS_BAD_REQUEST,
                (parse_path root p (parse_method (first_token line) request).2).2)
            | some v =>
              if (parse_protocol_version v
                  (parse_path root p (parse_method (first_token line) request).2).2).1
                  ≠ STATUS_OK then
                parse_protocol_version v
                  (parse_path root p (parse_method (first_token line) request).2).2
              else
                (STATUS_OK, (parse_protocol_version v
                  (parse_path root p (parse_method (first_token line) request).2).2).2) := by
  simp only [parse_initial_line, strsep_whitespace_eq, token_at]
  split
  · rfl
  · cases h1 : after_token line with
    | none => simp [strsep_whitespace_none]
    | some r1 =>
      simp only [strsep_whitespace_eq, token_at]
      split
      · rfl
      · cases h2 : after_token r1 with
        | none => simp [strsep_whitespace_none]
        | some r2 => simp only [strsep_whitespace_eq]

theorem parse_method_status (t : List Char) (request : http_request_t) :
    (parse_method t request).1 = if supported_method t then STATUS_OK else STATUS_BAD_REQUEST := by
  unfold parse_method supported_method
  by_cases h1 : t = "GET".toList
  · rw [if_pos h1, if_pos (Or.inl h1)]
  · by_cases h2 : t = "HEAD".toList
    · rw [if_neg h1, if_pos h2, if_pos (Or.inr h2)]
    · rw [if_neg h1, if_neg h2, if_neg (not_or.2 ⟨h1, h2⟩)]

theorem parse_path_status (root t : List Char) (request : http_request_t) :
    (parse_path root t request).1 = if routable_path t then STATUS_OK else STATUS_NOT_FOUND := by
  unfold parse_path routable_path
  split <;> rfl

theorem parse_protocol_version_status (t : List Char) (request : http_request_t) :
    (parse_protocol_version t request).1 =
      if supported_version t then STATUS_OK else STATUS_BAD_REQUEST := by
  unfold parse_protocol_version supported_version
  by_cases h1 : t = "HTTP/1.0".toList
  · rw [if_pos h1, if_pos (Or.inl h1)]
  · by_cases h2 : t = "HTTP/1.1".toList
    · rw [if_neg h1, if_pos h2, if_pos (Or.inr h2)]
    · rw [if_neg h1, if_neg h2, if_neg (not_or.2 ⟨h1, h2⟩)]

theorem parse_initial_line_status (root line : List Char) (request : http_request_t) :
    (parse_initial_line root line request).1 = initial_line_status line := by
  rw [parse_initial_line_tokens]
  have h0 : token_at 0 line = some (first_token line) := rfl
  simp only [initial_line_status, h0]
  by_cases hm : supported_method (first_token line)
  · have e1 : (parse_method (first_token line) request).1 = STATUS_OK := by
      rw [parse_method_status, if_pos hm]
    simp only [e1, ne_eq, not_true_eq_false, if_false, hm]
    cases h1 : token_at 1 line with
    | none => rfl
    | some p =>
      simp only
      by_cases hp : routable_path p
      · have e2 : ∀ r, (parse_path root p r).1 = STATUS_OK := by
          intro r; rw [parse_path_status, if_pos hp]
        simp only [e2, not_true_eq_false, if_false, hp]
        cases h2 : token_at 2 line with
        | none => rfl
        | some v =>
          simp only
          by_cases hv : supported_version v
          · have e3 : ∀ r, (parse_protocol_version v r).1 = STATUS_OK := by
              intro r; rw [parse_protocol_version_status, if_pos hv]
            simp only [e3, not_true_eq_false, if_false, hv]
          · have e3 : ∀ r, (parse_protocol_version v r).1 = STATUS_BAD_REQUEST := by
              intro r; rw [parse_protocol_version_status, if_neg hv]
            have hne : ¬ STATUS_BAD_REQUEST = STATUS_OK := by decide
            simp only [e3, hne, not_false_eq_true, if_true, hv]
      · have e2 : ∀ r, (parse_path root p r).1 = STATUS_NOT_FOUND := by
          intro r; rw [parse_path_status, if_neg hp]
        have hne : ¬ STATUS_NOT_FOUND = STATUS_OK := by decide
        simp only [e2, hne, not_false_eq_true, if_true, hp]
  · have e1 : (parse_method (first_token line) request).1 = STATUS_BAD_REQUEST := by
      rw [parse_method_status, if_neg hm]
    have hne : ¬ STATUS_BAD_REQUEST = STATUS_OK := by decide
    simp only [e1, ne_eq, hne, not_false_eq_true, if_true, hm]

theorem parse_method_bad (t : List Char) (request : http_request_t)
    (h : ¬ supported_method t) : parse_method t request = (STATUS_BAD_REQUEST, request) := by
  unfold supported_method at h
  unfold parse_method
  rw [if_neg (fun e => h (Or.inl e)), if_neg (fun e => h (Or.inr e))]

theorem parse_method_ok (t : List Char) (request : http_request_t)
    (h : supported_method t) :
    parse_method t request =
      (STATUS_OK, { request with method := if t = "GET".toList then .GET else .HEAD }) := by
  unfold parse_method
  by_cases h1 : t = "GET".toList
  · rw [if_pos h1, if_pos h1]
  · have h2 : t = "HEAD".toList := h.resolve_left h1
    rw [if_neg h1, if_pos h2, if_neg h1]

theorem parse_path_bad (root t : List Char) (request : http_request_t)
    (h : ¬ routable_path t) : parse_path root t request = (STATUS_NOT_FOUND, request) := by
  unfold routable_path at h
  unfold parse_path
  rw [if_neg h]

theorem parse_path_ok (root t : List Char) (request : http_request_t)
    (h : routable_path t) :
    parse_path root t request =
      (STATUS_OK, { request with
        path := (root ++ "/index.html".toList).take (MAXPATH - 1), type := .TEXT }) := by
  unfold routable_path at h
  unfold parse_path
  rw [if_pos h]

theorem parse_protocol_version_bad (t : List Char) (request : http_request_t)
    (h : ¬ supported_version t) :
    parse_protocol_version t request = (STATUS_BAD_REQUEST, request) := by
  unfold supported_version at h
  unfold parse_protocol_version
  rw [if_neg (fun e => h (Or.inl e)), if_neg (fun e => h (Or.inr e))]

theorem parse_protocol_version_ok (t : List Char) (request : http_request_t)
    (h : supported_version t) :
    parse_protocol_version t request =
      (STATUS_OK, { request with
        protocol_version := if t = "HTTP/1.0".toList then 0 else 1 }) := by
  unfold parse_protocol_version
  by_cases h1 : t = "HTTP/1.0".toList
  · rw [if_pos h1, if_pos h1]
  · have h2 : t = "HTTP/1.1".toList := h.resolve_left h1
    rw [if_neg h1, if_pos h2, if_neg h1]

/-- A line with three accepted tokens gives OK and fills every field. -/
theorem parse_initial_line_ok (root line : List Char) (request : http_request_t)
    (p v : List Char)
    (hm : supported_method (first_token line))
    (h1 : token_at 1 line = some p) (hp : routable_path p)
    (h2 : token_at 2 line = some v) (hv : supported_version v) :
    parse_initial_line root line request =
      (STATUS_OK,
        { method := if first_token line = "GET".toList then .GET else .HEAD
          path := (root ++ "/index.html".toList).take (MAXPATH - 1)
          type := .TEXT
          protocol_version := if v = "HTTP/1.0".toList then 0 else 1 }) := by
  rw [parse_initial_line_tokens, h1, h2]
  simp only [parse_method_ok _ _ hm, parse_path_ok _ _ _ hp, parse_protocol_version_ok _ _ hv,
    ne_eq, not_true_eq_false, if_false]

/-- A line answered with OK has had its path and version fields set by this
very call. -/
theorem parse_initial_line_ok_fields (root line : List Char) (request : http_request_t)
    (h : (parse_initial_line root line request).1 = STATUS_OK) :
    (parse_initial_line root line request).2.type = .TEXT ∧
    ((parse_initial_line root line request).2.protocol_version = 0 ∨
      (parse_initial_line root line request).2.protocol_version = 1) := by
  have hs := parse_initial_line_status root line request
  rw [h] at hs
  have h0 : token_at 0 line = some (first_token line) := rfl
  simp only [initial_line_status, h0] at hs
  by_cases hm : supported_method (first_token line)
  · cases h1 : token_at 1 line with
    | none => simp [h1, hm, STATUS_OK, STATUS_BAD_REQUEST] at hs
    | some p =>
      by_cases hp : routable_path p
      · cases h2 : token_at 2 line with
        | none => simp [h1, h2, hm, hp, STATUS_OK, STATUS_BAD_REQUEST] at hs
        | some v =>
          by_cases hv : supported_version v
          · rw [parse_initial_line_ok root line request p v hm h1 hp h2 hv]
            refine ⟨rfl, ?_⟩
            by_cases e : v = "HTTP/1.0".toList
            · left; simp only [if_pos e]
            · right; simp only [if_neg e]
          · simp [h1, h2, hm, hp, hv, STATUS_OK, STATUS_BAD_REQUEST] at hs
      · simp [h1, hm, hp, STATUS_OK, STATUS_NOT_FOUND] at hs
  · simp [hm, STATUS_OK, STATUS_BAD_REQUEST] at hs

/-- A first line that is rejected ends `parse_request` at once: the header
loop is not entered. -/
theorem parse_request_rejected (root msg : List Char) (request : http_request_t)
    (h : (parse_initial_line root (request_line msg) request).1 ≠ STATUS_OK) :
    parse_request root msg request =
      .done (parse_initial_line root (request_line msg) request) := by
  simp only [parse_request, strsep_newline_eq]
  rw [if_pos h]

theorem takeWhile_append_stop (q : Char → Bool) (l : List Char) (c : Char) (t : List Char)
    (h : q c = false) : (l ++ c :: t).takeWhile q = l.takeWhile q := by
  induction l with
  | nil => simp [h]
  | cons x xs ih =>
    by_cases hx : q x = true
    · simp [List.takeWhile_cons, hx, ih]
    · simp [List.takeWhile_cons, hx]

theorem wire_has_terminator (eol line : List Char) (headers : List (List Char)) :
    eol ++ eol <:+: wire eol line headers := by
  unfold wire
  induction headers generalizing line with
  | nil => exact ⟨line, [], by simp⟩
  | cons h hs ih =>
    have := ih (line ++ eol ++ h)
    simpa [List.append_assoc] using this

theorem after_token_eq_none_iff (line : List Char) :
    after_token line = none ↔ ∀ c ∈ line, is_blank c = false := by
  unfold after_token
  constructor
  · intro h
    split at h
    · rename_i heq
      intro c hc
      have := (List.dropWhile_eq_nil_iff.1 heq) c hc
      simpa using this
    · simp at h
  · intro h
    have : line.dropWhile (fun c => !is_blank c) = [] :=
      List.dropWhile_eq_nil_iff.2 (fun c hc => by simp [h c hc])
    rw [this]

theorem after_token_trailing (line : List Char) (sep : Char)
    (h : ∀ c ∈ line, is_blank c = false) (hs : is_blank sep = true) :
    after_token (line ++ [sep]) = some [] := by
  induction line with
  | nil => simp [after_token, hs]
  | cons x xs ih =>
    have hx : is_blank x = false := h x (List.mem_cons_self _ _)
    have := ih (fun c hc => h c (List.mem_cons_of_mem _ hc))
    simp only [after_token, List.cons_append, List.dropWhile_cons, hx, Bool.not_false,
      if_true] at this ⊢
    exact this

/-! ## Claims on the request parser -/

/-- C1: a message that begins with the request line `GET / HTTP/1.1` or
`GET /index.html HTTP/1.1`, ended by CRLF or LF, and that contains a blank-line
terminator, is answered by `parse_request` with STATUS_OK, and the request is
filled with method GET, content type TEXT, protocol version 1 and the path
`DOCUMENT_ROOT/index.html` (when that string fits in `MAXPATH - 1` characters). -/
theorem C1_get_index_ok (root line eol rest : List Char) (request : http_request_t)
    (hline : line = "GET / HTTP/1.1".toList ∨ line = "GET /index.html HTTP/1.1".toList)
    (heol : eol = "\r\n".toList ∨ eol = "\n".toList)
    (hterm : has_terminator (line ++ eol ++ rest))
    (hfit : (root ++ "/index.html".toList).length ≤ MAXPATH - 1) :
    parse_request root (line ++ eol ++ rest) request =
      .done (STATUS_OK,
        { method := .GET
          path := root ++ "/index.html".toList
          type := .TEXT
          protocol_version := 1 }) := by
  rw [parse_request_eq root _ request hterm]
  have hfirst : (line ++ eol ++ rest).takeWhile (fun c => !is_eol c) = line := by
    have hl : line.takeWhile (fun c => !is_eol c) = line := by
      rcases hline with h | h <;> · subst h; decide
    rcases heol with h | h
    · subst h
      have := takeWhile_append_stop (fun c => !is_eol c) line '\r' ('\n' :: rest) (by decide)
      simpa [hl] using this
    · subst h
      have := takeWhile_append_stop (fun c => !is_eol c) line '\n' rest (by decide)
      simpa [hl] using this
  rw [hfirst]
  have htake : (root ++ "/index.html".toList).take (MAXPATH - 1) = root ++ "/index.html".toList :=
    List.take_of_length_le hfit
  rcases hline with h | h
  · subst h
    rw [parse_initial_line_ok root _ request "/".toList "HTTP/1.1".toList (by decide) (by decide)
      (by decide) (by decide) (by decide), htake]
    rfl
  · subst h
    rw [parse_initial_line_ok root _ request "/index.html".toList "HTTP/1.1".toList (by decide)
      (by decide) (by decide) (by decide) (by decide), htake]
    rfl

/-- C2: when the method token, the first space/tab-delimited token of the
request line, is not exactly `GET` or `HEAD`, `parse_request` returns
STATUS_BAD_REQUEST whatever the rest of the message is (and leaves the request
as it was). -/
theorem C2_unsupported_method (root msg : List Char) (request : http_request_t)
    (h : ¬ supported_method (first_token (request_line msg))) :
    parse_request root msg request = .done (STATUS_BAD_REQUEST, request) := by
  have e : parse_initial_line root (request_line msg) request = (STATUS_BAD_REQUEST, request) := by
    rw [parse_initial_line_tokens, parse_method_bad _ _ h]
    rfl
  rw [parse_request_rejected root msg request (by rw [e]; simp [STATUS_BAD_REQUEST, STATUS_OK]), e]

/-- C3, as stated, fails: `POST /missing HTTP/1.1` has an unroutable path
token and is answered with 400, not 404, because the method is checked first. -/
theorem C3_counterexample :
    ¬ (∀ (root msg : List Char) (request : http_request_t) (p : List Char),
        token_at 1 (request_line msg) = some p → ¬ routable_path p →
        ∃ r, parse_request root msg request = .done (STATUS_NOT_FOUND, r)) := by
  intro h
  obtain ⟨r, hr⟩ := h "/srv".toList "POST /missing HTTP/1.1\r\n\r\n".toList
    { method := .GET, path := [], type := .TEXT, protocol_version := 1 }
    "/missing".toList (by decide) (by decide)
  have e : parse_request "/srv".toList "POST /missing HTTP/1.1\r\n\r\n".toList
      { method := .GET, path := [], type := .TEXT, protocol_version := 1 } =
      .done (STATUS_BAD_REQUEST,
        { method := .GET, path := [], type := .TEXT, protocol_version := 1 }) := by decide
  rw [e] at hr
  simp [STATUS_BAD_REQUEST, STATUS_NOT_FOUND] at hr

/-- C3, amended: when the method token is `GET` or `HEAD` and the path token
is present and is neither `/` nor `/index.html`, `parse_request` returns
STATUS_NOT_FOUND; only the method field of the request has been written. -/
theorem C3_unroutable_path (root msg : List Char) (request : http_request_t) (p : List Char)
    (hm : supported_method (first_token (request_line msg)))
    (hp : token_at 1 (request_line msg) = some p) (hr : ¬ routable_path p) :
    parse_request root msg request =
      .done (STATUS_NOT_FOUND,
        { request with
          method := if first_token (request_line msg) = "GET".toList then .GET else .HEAD }) := by
  have e : parse_initial_line root (request_line msg) request =
      (STATUS_NOT_FOUND,
        { request with
          method := if first_token (request_line msg) = "GET".toList then .GET else .HEAD }) := by
    rw [parse_initial_line_tokens, hp]
    simp only [parse_method_ok _ _ hm, parse_path_bad _ _ _ hr, ne_eq, not_true_eq_false,
      if_false]
    rfl
  rw [parse_request_rejected root msg request (by rw [e]; simp [STATUS_NOT_FOUND, STATUS_OK]), e]

/-- C4, as stated, fails: `GET /missing FTP/1.0` has an unsupported protocol
token and is answered with 404, not 400, because the path is checked first. -/
theorem C4_counterexample :
    ¬ (∀ (root msg : List Char) (request : http_request_t) (v : List Char),
        token_at 2 (request_line msg) = some v → ¬ supported_version v →
        ∃ r, parse_request root msg request = .done (STATUS_BAD_REQUEST, r)) := by
  intro h
  obtain ⟨r, hr⟩ := h "/srv".toList "GET /missing FTP/1.0\r\n\r\n".toList
    { method := .GET, path := [], type := .TEXT, protocol_version := 1 }
    "FTP/1.0".toList (by decide) (by decide)
  have e : parse_request "/srv".toList "GET /missing FTP/1.0\r\n\r\n".toList
      { method := .GET, path := [], type := .TEXT, protocol_version := 1 } =
      .done (STATUS_NOT_FOUND,
        { method := .GET, path := [], type := .TEXT, protocol_version := 1 }) := by decide
  rw [e] at hr
  simp [STATUS_BAD_REQUEST, STATUS_NOT_FOUND] at hr

/-- C4, amended: when the protocol token, the third token of the request line,
is absent or is not exactly `HTTP/1.0` or `HTTP/1.1`, `parse_request` returns
STATUS_BAD_REQUEST, except when the method token is `GET` or `HEAD` and the
path token is neither `/` nor `/index.html`: then it returns STATUS_NOT_FOUND. -/
theorem C4_unsupported_version (root msg : List Char) (request : http_request_t)
    (hv : ∀ v, token_at 2 (request_line msg) = some v → ¬ supported_version v) :
    ∃ r, parse_request root msg request =
      .done ((match token_at 1 (request_line msg) with
        | some p =>
          if supported_method (first_token (request_line msg)) ∧ ¬ routable_path p then
            STATUS_NOT_FOUND
          else STATUS_BAD_REQUEST
        | none => STATUS_BAD_REQUEST), r) := by
  have hs := parse_initial_line_status root (request_line msg) request
  have h0 : token_at 0 (request_line msg) = some (first_token (request_line msg)) := rfl
  have key : initial_line_status (request_line msg) =
      (match token_at 1 (request_line msg) with
        | some p =>
          if supported_method (first_token (request_line msg)) ∧ ¬ routable_path p then
            STATUS_NOT_FOUND
          else STATUS_BAD_REQUEST
        | none => STATUS_BAD_REQUEST) := by
    simp only [initial_line_status, h0]
    by_cases hm : supported_method (first_token (request_line msg))
    · cases h1 : token_at 1 (request_line msg) with
      | none => simp [hm]
      | some p =>
        by_cases hp : routable_path p
        · cases h2 : token_at 2 (request_line msg) with
          | none => simp [hm, hp]
          | some v => simp [hm, hp, hv v h2]
        · simp [hm, hp]
    · cases h1 : token_at 1 (request_line msg) <;> simp [hm]
  have hne : initial_line_status (request_line msg) ≠ STATUS_OK := by
    rw [key]
    cases token_at 1 (request_line msg) with
    | none => simp [STATUS_BAD_REQUEST, STATUS_OK]
    | some p => simp only; split <;> simp [STATUS_BAD_REQUEST, STATUS_NOT_FOUND, STATUS_OK]
  refine ⟨(parse_initial_line root (request_line msg) request).2, ?_⟩
  rw [parse_request_rejected root msg request (by rw [hs]; exact hne), ← key, ← hs]

/-- C9: a NUL-free message with a blank-line terminator is parsed to the end
(the result is `done`: the header loop meets an empty line before it could hand
a NULL cursor to `strsep_newline`), and status and request are those of
`parse_initial_line` on the first line, the text before the first CR or LF.
In particular a request line followed by any header lines gives, with CRLF as
with LF line ends, the same result as the request line followed by `\n\n`. -/
theorem C9_headers_skipped (root : List Char) (request : http_request_t) :
    (∀ msg : List Char, '\x00' ∉ msg → has_terminator msg →
      parse_request root msg request =
        .done (parse_initial_line root (msg.takeWhile (fun c => !is_eol c)) request)) ∧
    (∀ (line : List Char) (headers : List (List Char)),
      parse_request root (wire "\r\n".toList line headers) request =
        parse_request root (line ++ "\n\n".toList) request ∧
      parse_request root (wire "\n".toList line headers) request =
        parse_request root (line ++ "\n\n".toList) request) := by
  refine ⟨fun msg _ h => parse_request_eq root msg request h, ?_⟩
  intro line headers
  have t0 : has_terminator (line ++ "\n\n".toList) := Or.inr ⟨line, [], by simp⟩
  have t1 : has_terminator (wire "\r\n".toList line headers) :=
    Or.inl (wire_has_terminator "\r\n".toList line headers)
  have t2 : has_terminator (wire "\n".toList line headers) :=
    Or.inr (wire_has_terminator "\n".toList line headers)
  have f0 : (line ++ "\n\n".toList).takeWhile (fun c => !is_eol c) =
      line.takeWhile (fun c => !is_eol c) :=
    takeWhile_append_stop _ line '\n' ['\n'] (by decide)
  have f1 : (wire "\r\n".toList line headers).takeWhile (fun c => !is_eol c) =
      line.takeWhile (fun c => !is_eol c) := by
    have := takeWhile_append_stop (fun c => !is_eol c) line '\r'
      ('\n' :: ((headers.map (fun h => h ++ "\r\n".toList)).flatten ++ "\r\n".toList))
      (by decide)
    simpa [wire, List.append_assoc] using this
  have f2 : (wire "\n".toList line headers).takeWhile (fun c => !is_eol c) =
      line.takeWhile (fun c => !is_eol c) := by
    have := takeWhile_append_stop (fun c => !is_eol c) line '\n'
      ((headers.map (fun h => h ++ "\n".toList)).flatten ++ "\n".toList)
      (by decide)
    simpa [wire, List.append_assoc] using this
  rw [parse_request_eq root _ request t0, parse_request_eq root _ request t1,
    parse_request_eq root _ request t2, f0, f1, f2]
  exact ⟨rfl, rfl⟩

/-- C10: `parse_initial_line` checks method, path and version in this order
and returns the status of the first check that fails.  The tokens are those of
`strsep_whitespace`: the text before the first space or tab, the cursor being
absent exactly when the line ended there and otherwise moved behind the whole
run of separators, so that a line ending right after a separator has an empty
last token.  The status is 400 for an unsupported first token, else 400 for an
absent and 404 for an unroutable second token, else 400 for an absent or
unsupported third token, else 200.  So a supported method with an unroutable
path gives 404 whatever the version token is, and the result depends on the
first three tokens only. -/
theorem C10_check_order (root : List Char) (request : http_request_t) :
    (∀ line : List Char,
      strsep_whitespace (some line) = (some (first_token line), after_token line)) ∧
    (∀ line : List Char,
      (parse_initial_line root line request).1 = initial_line_status line) ∧
    (∀ line p : List Char, supported_method (first_token line) →
      token_at 1 line = some p → ¬ routable_path p →
      (parse_initial_line root line request).1 = STATUS_NOT_FOUND) ∧
    (∀ line line2 : List Char, token_at 0 line = token_at 0 line2 →
      token_at 1 line = token_at 1 line2 → token_at 2 line = token_at 2 line2 →
      parse_initial_line root line request = parse_initial_line root line2 request) ∧
    (∀ line : List Char, after_token line = none ↔ ∀ c ∈ line, is_blank c = false) ∧
    (∀ (line : List Char) (sep : Char), (∀ c ∈ line, is_blank c = false) →
      is_blank sep = true →
      token_at 1 (line ++ [sep]) = some [] ∧ token_at 2 (line ++ [sep]) = none) := by
  refine ⟨strsep_whitespace_eq, fun line => parse_initial_line_status root line request, ?_, ?_,
    after_token_eq_none_iff, ?_⟩
  · intro line p hm hp hr
    rw [parse_initial_line_tokens, hp]
    simp only [parse_method_ok _ _ hm, parse_path_bad _ _ _ hr, ne_eq, not_true_eq_false,
      if_false]
    rfl
  · intro line line2 h0 h1 h2
    have h0 : first_token line = first_token line2 := by
      simpa [token_at] using h0
    rw [parse_initial_line_tokens, parse_initial_line_tokens, h0, h1, h2]
  · intro line sep h hs
    have e := after_token_trailing line sep h hs
    have e0 : after_token [] = none := rfl
    have f0 : first_token [] = [] := rfl
    simp only [token_at, e, e0, f0, and_self]

/-! ## Claims on the worker cycle -/

theorem sent_append (a b : List conn_op) : sent (a ++ b) = sent a ++ sent b := by
  induction a with
  | nil => rfl
  | cons x xs ih => cases x <;> simp [sent, ih]

theorem sent_map_send (l : List (List Char)) : sent (l.map conn_op.send) = l := by
  induction l with
  | nil => rfl
  | cons x xs ih => simp [sent, ih]

theorem sent_respond (status : status_t) (request : http_request_t) (env : env_t) :
    sent (respond status request env) =
      [status_line status request, date_line env] ++
      (if status = STATUS_OK ∧ request.method = .GET then
        [content_length_line env, content_type_line request]
       else []) ++
      ["\r\n".toList] ++
      (if status = STATUS_OK ∧ request.method = .GET then env.reads else []) := by
  unfold respond
  simp only [sent_append]
  by_cases hc : status = STATUS_OK ∧ request.method = .GET
  · simp only [if_pos hc, sent_map_send]
    by_cases hk : request.protocol_version = 0 ∨ status ≠ STATUS_OK
    · simp [if_pos hk, sent]
    · simp [if_neg hk, sent]
  · simp only [if_neg hc]
    by_cases hk : request.protocol_version = 0 ∨ status ≠ STATUS_OK
    · simp [if_pos hk, sent]
    · simp [if_neg hk, sent]

theorem strsep_newline_raw_done (s : Option (List Char))
    (x : Option (List Char) × Option (List Char)) (h : strsep_newline_raw s = .done x) :
    strsep_newline s = .done x := by
  unfold strsep_newline_raw at h
  split at h
  · simp at h
  · split at h
    · simp at h
    · exact h

/-- On a bare array the header loop, when it stays inside the array, does what
it does on the C string. -/
theorem header_loop_raw_done (request : http_request_t) (fuel : Nat) (cur : Option (List Char))
    (st : status_t) (h : header_loop_raw request fuel cur = .done st) :
    header_loop request fuel cur = .done st := by
  induction fuel generalizing cur with
  | zero => simp [header_loop_raw] at h
  | succ f ih =>
    simp only [header_loop_raw] at h
    simp only [header_loop]
    cases hx : strsep_newline_raw cur with
    | undefined => rw [hx] at h; simp at h
    | out_of_fuel => rw [hx] at h; simp at h
    | done x =>
      rw [hx] at h
      rw [strsep_newline_raw_done cur x hx]
      obtain ⟨l, r⟩ := x
      cases l with
      | none => exact h
      | some line =>
        simp only at h ⊢
        split at h
        · rename_i he
          rw [if_pos he]
          exact h
        · rename_i he
          rw [if_neg he]
          split at h
          · rename_i hp
            rw [if_pos hp]
            exact h
          · rename_i hp
            rw [if_neg hp]
            exact ih r h

/-- On a bare array `parse_request`, when it stays inside the array, returns
what it returns on the C string with the same bytes. -/
theorem parse_request_raw_done (root msg : List Char) (request : http_request_t)
    (x : status_t × http_request_t) (h : parse_request_raw root msg request = .done x) :
    parse_request root msg request = .done x := by
  simp only [parse_request_raw] at h
  simp only [parse_request]
  cases hx : strsep_newline_raw (some msg) with
  | undefined => rw [hx] at h; simp at h
  | out_of_fuel => rw [hx] at h; simp at h
  | done y =>
    rw [hx] at h
    rw [strsep_newline_raw_done (some msg) y hx]
    obtain ⟨l, r⟩ := y
    cases l with
    | none => exact h
    | some line =>
      simp only at h ⊢
      split at h
      · rename_i he
        rw [if_pos he]
        exact h
      · rename_i he
        rw [if_neg he]
        cases hl : header_loop_raw (parse_initial_line root line request).2 (msg.length + 1) r with
        | undefined => rw [hl] at h; simp at h
        | out_of_fuel => rw [hl] at h; simp at h
        | done st =>
          rw [hl] at h
          rw [header_loop_raw_done _ _ _ st hl]
          exact h

/-- Whatever the call on the array `msg` returns is the result of
`parse_request` on a C string. -/
theorem parse_buffer_done (root buf : List Char) (request : http_request_t)
    (x : status_t × http_request_t) (h : parse_buffer root buf request = .done x) :
    ∃ msg, parse_request root msg request = .done x := by
  unfold parse_buffer at h
  split at h
  · rename_i msg _
    exact ⟨msg, h⟩
  · exact ⟨buf, parse_request_raw_done root buf request x h⟩

theorem header_loop_raw_fuel (request : http_request_t) (fuel : Nat)
    (cur : Option (List Char)) (h0 : 0 < fuel) (h : ∀ l, cur = some l → l.length < fuel) :
    header_loop_raw request fuel cur ≠ .out_of_fuel := by
  induction fuel generalizing cur with
  | zero => omega
  | succ f ih =>
    cases cur with
    | none => simp [header_loop_raw, strsep_newline_raw]
    | some l =>
      simp only [header_loop_raw, strsep_newline_raw]
      by_cases hc : strchr l '\r' = none ∨ strchr l '\n' = none
      · rw [if_pos hc]
        simp
      · rw [if_neg hc]
        simp only [strsep_newline_eq]
        split
        · simp
        · rename_i hne
          simp only [parse_header, ne_eq, not_true_eq_false, if_false]
          have hl := h l rfl
          have hpos : 0 < l.length := by
            cases l with
            | nil => simp [request_line] at hne
            | cons _ _ => simp
          apply ih
          · omega
          · intro r hr
            have := after_line_length l r hr
            omega

/-- The bound of the unrolled loops is never reached in a worker cycle. -/
theorem worker_cycle_fuel (root : List Char) (req : http_request_t) (errno : Int)
    (recvs : List recv_t) (env : env_t) :
    worker_cycle root req errno recvs env ≠ .out_of_fuel := by
  have hraw : ∀ buf : List Char, parse_request_raw root buf req ≠ .out_of_fuel := by
    intro buf
    simp only [parse_request_raw, strsep_newline_raw]
    by_cases hc : strchr buf '\r' = none ∨ strchr buf '\n' = none
    · rw [if_pos hc]
      simp
    · rw [if_neg hc]
      simp only [strsep_newline_eq]
      split
      · simp
      · have := header_loop_raw_fuel (parse_initial_line root (request_line buf) req).2
          (buf.length + 1) (after_line buf) (by omega) (by
            intro l hl
            have := after_line_length buf l hl
            omega)
        split
        · simp
        · contradiction
        · split <;> simp
  have hbuf : ∀ buf : List Char, parse_buffer root buf req ≠ .out_of_fuel := by
    intro buf
    unfold parse_buffer
    split
    · exact parse_request_fuel root _ req
    · exact hraw buf
  unfold worker_cycle
  split
  · simp
  · simp
  · simp
  · simp only
    split
    · simp
    · rename_i hx
      exact absurd hx (hbuf _)
    · simp

/-- A cycle that reaches `send:` comes from the error exit of the accumulation
loop, with status 500 and the request untouched, or from `parse_request`, after
the handle has been re-armed. -/
theorem worker_cycle_responded (root : List Char) (req : http_request_t) (errno : Int)
    (recvs : List recv_t) (env : env_t) (status : status_t) (request : http_request_t)
    (ops : List conn_op)
    (h : worker_cycle root req errno recvs env = .responded status request ops) :
    (status = STATUS_SERVER_ERROR ∧ request = req ∧ ops = respond status request env) ∨
    (∃ msg, parse_request root msg req = .done (status, request) ∧
      ops = .epoll_ctl EPOLL_CTL_MOD (EPOLLIN ||| EPOLLET ||| EPOLLONESHOT) ::
        respond status request env) := by
  unfold worker_cycle at h
  split at h
  · simp at h
  · simp at h
  · simp only [cycle_t.responded.injEq] at h
    obtain ⟨h1, h2, h3⟩ := h
    subst h1 h2 h3
    exact Or.inl ⟨rfl, rfl, rfl⟩
  · simp only at h
    split at h
    · simp at h
    · simp at h
    · rename_i st rq hp
      simp only [cycle_t.responded.injEq] at h
      obtain ⟨h1, h2, h3⟩ := h
      subst h1 h2 h3
      obtain ⟨msg, hmsg⟩ := parse_buffer_done _ _ _ _ hp
      exact Or.inr ⟨msg, hmsg, rfl⟩

theorem initial_line_status_range (line : List Char) :
    initial_line_status line = STATUS_OK ∨ initial_line_status line = STATUS_BAD_REQUEST ∨
      initial_line_status line = STATUS_NOT_FOUND := by
  unfold initial_line_status
  split
  · exact Or.inr (Or.inl rfl)
  · split
    · exact Or.inr (Or.inl rfl)
    · split
      · exact Or.inr (Or.inl rfl)
      · split
        · exact Or.inr (Or.inr rfl)
        · split
          · exact Or.inr (Or.inl rfl)
          · split
            · exact Or.inr (Or.inl rfl)
            · exact Or.inl rfl

/-- No input makes the worker answer with 413: the status of a response is 500
from the error exit of the accumulation loop or one of 200, 400, 404 from
`parse_request`. -/
theorem worker_cycle_status_range (root : List Char) (req : http_request_t) (errno : Int)
    (recvs : List recv_t) (env : env_t) (status : status_t) (request : http_request_t)
    (ops : List conn_op)
    (h : worker_cycle root req errno recvs env = .responded status request ops) :
    status = STATUS_SERVER_ERROR ∨ status = STATUS_OK ∨ status = STATUS_BAD_REQUEST ∨
      status = STATUS_NOT_FOUND := by
  rcases worker_cycle_responded root req errno recvs env status request ops h with
    ⟨h1, _, _⟩ | ⟨msg, hp, _⟩
  · exact Or.inl h1
  · have e := parse_request_done root msg req _ hp
    have hs : status = initial_line_status (request_line msg) := by
      rw [← parse_initial_line_status root (request_line msg) req, ← e]
    rw [hs]
    exact Or.inr (initial_line_status_range _)

theorem close_mem_respond (status : status_t) (request : http_request_t) (env : env_t) :
    conn_op.close ∈ respond status request env ↔
      request.protocol_version = 0 ∨ status ≠ STATUS_OK := by
  unfold respond
  by_cases hk : request.protocol_version = 0 ∨ status ≠ STATUS_OK
  · simp [if_pos hk, hk]
  · simp only [if_neg hk, List.append_nil, iff_false_right hk]
    split <;> simp

theorem respond_ends_with_close (status : status_t) (request : http_request_t) (env : env_t)
    (hk : request.protocol_version = 0 ∨ status ≠ STATUS_OK) :
    ∃ pre, respond status request env = pre ++ [.close] := by
  unfold respond
  rw [if_pos hk]
  exact ⟨_, rfl⟩

/-- C5: the buffers the worker hands to `send` are, in this order, the status
line `HTTP/1.<protocol_version> <code> <reason>` with the reason of
`status_to_str`, one `Date: ... GMT` line, a `Content-Length` and a
`Content-Type` line exactly when the status is 200 and the method GET, the
blank line, and the blocks of the file in that same case only; this holds for
every status and request, and it is what every responding cycle of
`worker_routine` sends.  A HEAD request or a status other than 200 thus gets
status line, date line and blank line, nothing else. -/
theorem C5_response_bytes (status : status_t) (request : http_request_t) (env : env_t) :
    sent (respond status request env) =
      ["HTTP/1.".toList ++ fmt_d request.protocol_version ++ " ".toList ++ fmt_d status ++
          " ".toList ++ status_to_str status ++ "\r\n".toList,
        "Date: ".toList ++ env.date ++ " GMT\r\n".toList] ++
      (if status = 200 ∧ request.method = .GET then
        ["Content-Length: ".toList ++ fmt_d (to_int env.st_size) ++ "\r\n".toList,
          "Content-Type: ".toList ++ type_to_str request.type ++ "\r\n".toList]
       else []) ++
      ["\r\n".toList] ++
      (if status = 200 ∧ request.method = .GET then env.reads else []) ∧
    (¬ (status = 200 ∧ request.method = .GET) →
      sent (respond status request env) =
        ["HTTP/1.".toList ++ fmt_d request.protocol_version ++ " ".toList ++ fmt_d status ++
            " ".toList ++ status_to_str status ++ "\r\n".toList,
          "Date: ".toList ++ env.date ++ " GMT\r\n".toList,
          "\r\n".toList]) ∧
    (∀ (root : List Char) (req : http_request_t) (errno : Int) (recvs : List recv_t)
        (ops : List conn_op),
      worker_cycle root req errno recvs env = .responded status request ops →
      sent ops = sent (respond status request env)) := by
  have main := sent_respond status request env
  simp only [status_line, date_line, content_length_line, content_type_line, STATUS_OK] at main
  refine ⟨main, ?_, ?_⟩
  · intro hc
    rw [main, if_neg hc, if_neg hc]
    rfl
  · intro root req errno recvs ops h
    rcases worker_cycle_responded root req errno recvs env status request ops h with
      ⟨_, _, h3⟩ | ⟨msg, _, h3⟩
    · rw [h3]
    · rw [h3]
      rfl

/-- C6, as stated, fails: on `GET / HTTP/1.1` the worker answers 200 with
method GET and no buffer it sends begins with `Content-Type: text/`. -/
theorem C6_counterexample :
    ¬ (∀ (root : List Char) (req : http_request_t) (errno : Int) (recvs : List recv_t)
        (env : env_t) (status : status_t) (request : http_request_t) (ops : List conn_op),
        worker_cycle root req errno recvs env = .responded status request ops →
        status = STATUS_OK → request.method = .GET →
        ∃ line ∈ sent ops, "Content-Type: text/".toList <+: line) := by
  intro h
  obtain ⟨line, hmem, hpre⟩ := h "/srv".toList stale_request 0
    [.data "GET / HTTP/1.1\r\n\r\n".toList] sample_env STATUS_OK
    { method := .GET, path := "/srv/index.html".toList, type := .TEXT, protocol_version := 1 }
    (rearm :: respond STATUS_OK
      { method := .GET, path := "/srv/index.html".toList, type := .TEXT, protocol_version := 1 }
      sample_env)
    (by decide) rfl rfl
  have hall : ∀ l ∈ sent (rearm :: respond STATUS_OK
      { method := .GET, path := "/srv/index.html".toList, type := .TEXT, protocol_version := 1 }
      sample_env), ¬ "Content-Type: text/".toList <+: l := by decide
  exact hall line hmem hpre

/-- C6, amended: in a cycle that answers 200 to a GET request the worker sends
status line, date line, `Content-Length` line, then the line
`Content-Type: text` + CRLF, whose value is the bare name `text` that
`type_to_str` gives for the content type TEXT set by `parse_path`, then the
blank line and the file. -/
theorem C6_content_type_line (root : List Char) (req : http_request_t) (errno : Int)
    (recvs : List recv_t) (env : env_t) (status : status_t) (request : http_request_t)
    (ops : List conn_op)
    (h : worker_cycle root req errno recvs env = .responded status request ops)
    (hs : status = STATUS_OK) (hm : request.method = .GET) :
    request.type = .TEXT ∧
    type_to_str request.type = "text".toList ∧
    sent ops =
      [status_line status request, date_line env, content_length_line env,
        "Content-Type: text\r\n".toList, "\r\n".toList] ++ env.reads := by
  have htype : request.type = .TEXT := by
    rcases worker_cycle_responded root req errno recvs env status request ops h with
      ⟨h1, _, _⟩ | ⟨msg, hp, _⟩
    · rw [hs] at h1
      exact absurd h1 (by decide)
    · have e := parse_request_done root msg req _ hp
      have hok : (parse_initial_line root (request_line msg) req).1 = STATUS_OK := by
        rw [← e]; exact hs
      have := (parse_initial_line_ok_fields root (request_line msg) req hok).1
      rw [← e] at this
      exact this
  have hsent : sent ops = sent (respond status request env) := by
    rcases worker_cycle_responded root req errno recvs env status request ops h with
      ⟨_, _, h3⟩ | ⟨msg, _, h3⟩
    · rw [h3]
    · rw [h3]; rfl
  refine ⟨htype, by rw [htype]; rfl, ?_⟩
  rw [hsent, sent_respond, if_pos ⟨hs, hm⟩, if_pos ⟨hs, hm⟩]
  simp [content_type_line, htype, type_to_str]

/-- A cycle that receives `GET / HTTP/1.1` and the blank line in one piece
answers 200, whatever `*request` and `errno` held on entry. -/
theorem worker_cycle_get_root (root : List Char) (request : http_request_t) (errno : Int)
    (env : env_t) :
    worker_cycle root request errno [.data "GET / HTTP/1.1\r\n\r\n".toList] env =
      .responded 200
        { method := .GET
          path := (root ++ "/index.html".toList).take (MAXPATH - 1)
          type := .TEXT
          protocol_version := 1 }
        (.epoll_ctl EPOLL_CTL_MOD (EPOLLIN ||| EPOLLET ||| EPOLLONESHOT) ::
          respond 200
            { method := .GET
              path := (root ++ "/index.html".toList).take (MAXPATH - 1)
              type := .TEXT
              protocol_version := 1 } env) := by
  have hacc : accumulate [.data "GET / HTTP/1.1\r\n\r\n".toList] errno [] =
      .complete "GET / HTTP/1.1\r\n\r\n".toList := by
    have h1 : loop_cond [] = true := by decide
    have h2 : loop_cond "GET / HTTP/1.1\r\n\r\n".toList = false := by decide
    have h3 : (("GET / HTTP/1.1\r\n\r\n".toList.take (MAXMSG - ([] : List Char).length)).length
        : Int) ≤ 0 ↔ False := by decide
    have h4 : [] ++ "GET / HTTP/1.1\r\n\r\n".toList.take (MAXMSG - ([] : List Char).length) =
        "GET / HTTP/1.1\r\n\r\n".toList := by decide
    simp only [accumulate, h1, h3, h4, if_true, if_false, h2, Bool.false_eq_true]
  have hbuf : c_string (msg_buffer "GET / HTTP/1.1\r\n\r\n".toList) =
      some "GET / HTTP/1.1\r\n\r\n".toList := by decide
  have hline : "GET / HTTP/1.1\r\n\r\n".toList.takeWhile (fun c => !is_eol c) =
      "GET / HTTP/1.1".toList := by decide
  have hp : parse_request root "GET / HTTP/1.1\r\n\r\n".toList request =
      .done (200,
        { method := .GET
          path := (root ++ "/index.html".toList).take (MAXPATH - 1)
          type := .TEXT
          protocol_version := 1 }) := by
    rw [parse_request_eq root _ request (by decide), hline,
      parse_initial_line_ok root _ request "/".toList "HTTP/1.1".toList (by decide) (by decide)
        (by decide) (by decide) (by decide)]
    rfl
  simp only [worker_cycle, hacc, parse_buffer, hbuf, hp]

/-- C7: in a cycle that sends a response `close(connfd)` is called if and only
if the protocol version of the request is 0 or the status is not 200, and then
it is the last operation of the cycle; after a 200 for an HTTP/1.1 request the
handle is not closed and has been re-armed with `EPOLL_CTL_MOD` and
`EPOLLIN | EPOLLET | EPOLLONESHOT`, and a further cycle, entered with the
request this one leaves, answers a second `GET / HTTP/1.1` with 200 and keeps
the handle open again. -/
theorem C7_close_policy (root : List Char) (req : http_request_t) (errno : Int)
    (recvs : List recv_t) (env : env_t) (status : status_t) (request : http_request_t)
    (ops : List conn_op)
    (h : worker_cycle root req errno recvs env = .responded status request ops) :
    (conn_op.close ∈ ops ↔ request.protocol_version = 0 ∨ status ≠ 200) ∧
    (conn_op.close ∈ ops → ops.getLast? = some .close) ∧
    (request.protocol_version = 1 → status = 200 →
      conn_op.close ∉ ops ∧
      conn_op.epoll_ctl EPOLL_CTL_MOD (EPOLLIN ||| EPOLLET ||| EPOLLONESHOT) ∈ ops) ∧
    (request.protocol_version = 1 → status = 200 →
      ∀ (errno2 : Int) (env2 : env_t), ∃ request2 ops2,
        worker_cycle root request errno2 [.data "GET / HTTP/1.1\r\n\r\n".toList] env2 =
          .responded 200 request2 ops2 ∧
        request2.protocol_version = 1 ∧ conn_op.close ∉ ops2 ∧
        conn_op.epoll_ctl EPOLL_CTL_MOD (EPOLLIN ||| EPOLLET ||| EPOLLONESHOT) ∈ ops2) := by
  have hclose : conn_op.close ∈ ops ↔ request.protocol_version = 0 ∨ status ≠ 200 := by
    rcases worker_cycle_responded root req errno recvs env status request ops h with
      ⟨_, _, h3⟩ | ⟨msg, _, h3⟩
    · rw [h3]; exact close_mem_respond status request env
    · rw [h3, List.mem_cons]
      simp only [false_or, reduceCtorEq]
      exact close_mem_respond status request env
  refine ⟨hclose, ?_, ?_, ?_⟩
  · intro hc
    have hk := hclose.1 hc
    rcases worker_cycle_responded root req errno recvs env status request ops h with
      ⟨_, _, h3⟩ | ⟨msg, _, h3⟩
    · obtain ⟨pre, hpre⟩ := respond_ends_with_close status request env hk
      rw [h3, hpre]
      exact List.getLast?_concat _
    · obtain ⟨pre, hpre⟩ := respond_ends_with_close status request env hk
      rw [h3, hpre, ← List.cons_append]
      exact List.getLast?_concat _
  · intro hv hs
    constructor
    · rw [hclose]
      rintro (h0 | h0)
      · rw [hv] at h0; exact absurd h0 (by decide)
      · exact h0 hs
    · rcases worker_cycle_responded root req errno recvs env status request ops h with
        ⟨h1, _, _⟩ | ⟨msg, _, h3⟩
      · rw [hs] at h1; exact absurd h1 (by decide)
      · rw [h3]; exact List.mem_cons_self _ _
  · intro _ _ errno2 env2
    refine ⟨_, _, worker_cycle_get_root root request errno2 env2, rfl, ?_, List.mem_cons_self _ _⟩
    rw [List.mem_cons]
    simp only [false_or, reduceCtorEq]
    rw [close_mem_respond]
    simp [STATUS_OK]

set_option maxRecDepth 100000 in
/-- C8: evaluation at a full buffer.  After 1024 bytes without terminator the
accumulation loop ends normally and the buffer goes to `parse_request`: for
bytes without NUL the parser reads past the end of `msg`; when a NUL cuts the
text short the parser answers it like any request, here with 400.  Neither
cycle takes the status 413. -/
theorem C8_full_buffer_is_parsed :
    flood.length = MAXMSG ∧
    strstr flood "\r\n\r\n".toList = none ∧ strstr flood "\n\n".toList = none ∧
    accumulate [.data flood] 0 [] = .complete flood ∧
    worker_cycle "/srv".toList stale_request 0 [.data flood] sample_env = .undefined [rearm] ∧
    accumulate [.data flood_nul] 0 [] = .complete flood_nul ∧
    worker_cycle "/srv".toList stale_request 0 [.data flood_nul] sample_env =
      .responded STATUS_BAD_REQUEST stale_request
        [rearm,
          .send "HTTP/1.1 400 Bad Request\r\n".toList,
          .send "Date: Sun, 01 Nov 2026 10:00:00 GMT\r\n".toList,
          .send "\r\n".toList,
          .close] := by
  have hacc : accumulate [.data flood] 0 [] = .complete flood := by decide
  have hnul : c_string (msg_buffer flood) = none := by decide
  have hcr : strchr (msg_buffer flood) '\r' = none :=
    (strchr_eq_none_iff (msg_buffer flood) '\r').2 (by decide)
  refine ⟨by decide, by decide, by decide, hacc, ?_, by decide, by decide⟩
  simp only [worker_cycle, hacc, parse_buffer, hnul, parse_request_raw,
    strsep_newline_raw, hcr, true_or, if_true]
  rfl

/-! ## Instances of the claims at concrete requests -/

/-- Instance of C1: `GET /index.html HTTP/1.1` with one header, CRLF line ends. -/
theorem C1_get_index_ok_witness :
    has_terminator ("GET /index.html HTTP/1.1".toList ++ "\r\n".toList ++
      "Host: a\r\n\r\n".toList) ∧
    ("/srv".toList ++ "/index.html".toList).length ≤ MAXPATH - 1 ∧
    parse_request "/srv".toList
      ("GET /index.html HTTP/1.1".toList ++ "\r\n".toList ++ "Host: a\r\n\r\n".toList)
      stale_request =
      .done (STATUS_OK,
        { method := .GET
          path := "/srv".toList ++ "/index.html".toList
          type := .TEXT
          protocol_version := 1 }) :=
  ⟨by decide, by decide,
    C1_get_index_ok "/srv".toList "GET /index.html HTTP/1.1".toList "\r\n".toList
      "Host: a\r\n\r\n".toList stale_request (Or.inr rfl) (Or.inl rfl) (by decide) (by decide)⟩

/-- Instance of C2: `POST / HTTP/1.1`. -/
theorem C2_unsupported_method_witness :
    ¬ supported_method (first_token (request_line "POST / HTTP/1.1\r\n\r\n".toList)) ∧
    parse_request "/srv".toList "POST / HTTP/1.1\r\n\r\n".toList stale_request =
      .done (STATUS_BAD_REQUEST, stale_request) :=
  ⟨by decide,
    C2_unsupported_method "/srv".toList "POST / HTTP/1.1\r\n\r\n".toList stale_request
      (by decide)⟩

/-- Instance of amended C3: `GET /missing HTTP/1.1`. -/
theorem C3_unroutable_path_witness :
    supported_method (first_token (request_line "GET /missing HTTP/1.1\r\n\r\n".toList)) ∧
    token_at 1 (request_line "GET /missing HTTP/1.1\r\n\r\n".toList) = some "/missing".toList ∧
    ¬ routable_path "/missing".toList ∧
    parse_request "/srv".toList "GET /missing HTTP/1.1\r\n\r\n".toList stale_request =
      .done (STATUS_NOT_FOUND,
        { stale_request with
          method :=
            if first_token (request_line "GET /missing HTTP/1.1\r\n\r\n".toList) = "GET".toList
            then .GET else .HEAD }) :=
  ⟨by decide, by decide, by decide,
    C3_unroutable_path "/srv".toList "GET /missing HTTP/1.1\r\n\r\n".toList stale_request
      "/missing".toList (by decide) (by decide) (by decide)⟩

/-- Instance of amended C4: `GET / FTP/1.0` is answered with 400. -/
theorem C4_unsupported_version_witness :
    (∀ v, token_at 2 (request_line "GET / FTP/1.0\r\n\r\n".toList) = some v →
      ¬ supported_version v) ∧
    ∃ r, parse_request "/srv".toList "GET / FTP/1.0\r\n\r\n".toList stale_request =
      .done (STATUS_BAD_REQUEST, r) :=
  have hv : ∀ v, token_at 2 (request_line "GET / FTP/1.0\r\n\r\n".toList) = some v →
      ¬ supported_version v := by
    intro v h
    have e : token_at 2 (request_line "GET / FTP/1.0\r\n\r\n".toList) = some "FTP/1.0".toList := by
      decide
    rw [e] at h
    cases h
    decide
  ⟨hv, C4_unsupported_version "/srv".toList "GET / FTP/1.0\r\n\r\n".toList stale_request hv⟩

/-- Instance of C5: the bytes of a 404 answer on an HTTP/1.1 connection. -/
theorem C5_response_bytes_witness :
    sent (respond STATUS_NOT_FOUND stale_request sample_env) =
      ["HTTP/1.1 404 Not Found\r\n".toList,
        "Date: Sun, 01 Nov 2026 10:00:00 GMT\r\n".toList,
        "\r\n".toList] :=
  (C5_response_bytes STATUS_NOT_FOUND stale_request sample_env).2.1 (by decide)

set_option maxRecDepth 100000 in
/-- Instance of amended C6: `GET / HTTP/1.1` and the blank line arrive with
padding that fills `msg` to its last byte. -/
theorem C6_content_type_line_witness :
    worker_cycle "/srv".toList stale_request 0 [.data full_get] sample_env =
      .responded STATUS_OK
        { method := .GET, path := "/srv/index.html".toList, type := .TEXT,
          protocol_version := 1 }
        [rearm,
          .send "HTTP/1.1 200 OK\r\n".toList,
          .send "Date: Sun, 01 Nov 2026 10:00:00 GMT\r\n".toList,
          .send "Content-Length: 12\r\n".toList,
          .send "Content-Type: text\r\n".toList,
          .send "\r\n".toList,
          .send "hello world\n".toList] ∧
    sent [rearm,
          .send "HTTP/1.1 200 OK\r\n".toList,
          .send "Date: Sun, 01 Nov 2026 10:00:00 GMT\r\n".toList,
          .send "Content-Length: 12\r\n".toList,
          .send "Content-Type: text\r\n".toList,
          .send "\r\n".toList,
          .send "hello world\n".toList] =
      [status_line STATUS_OK
          { method := .GET, path := "/srv/index.html".toList, type := .TEXT,
            protocol_version := 1 },
        date_line sample_env, content_length_line sample_env,
        "Content-Type: text\r\n".toList, "\r\n".toList] ++ sample_env.reads :=
  ⟨by decide,
    (C6_content_type_line "/srv".toList stale_request 0
      [.data full_get] sample_env STATUS_OK
      { method := .GET, path := "/srv/index.html".toList, type := .TEXT,
        protocol_version := 1 } _ (by decide) rfl rfl).2.2⟩

set_option maxRecDepth 100000 in
/-- Instance of C7: an HTTP/1.1 request in a buffer filled to its last byte is
answered with 200; the handle stays open and is re-armed. -/
theorem C7_close_policy_witness :
    worker_cycle "/srv".toList stale_request 0 [.data full_get] sample_env =
      .responded STATUS_OK
        { method := .GET, path := "/srv/index.html".toList, type := .TEXT,
          protocol_version := 1 }
        [rearm,
          .send "HTTP/1.1 200 OK\r\n".toList,
          .send "Date: Sun, 01 Nov 2026 10:00:00 GMT\r\n".toList,
          .send "Content-Length: 12\r\n".toList,
          .send "Content-Type: text\r\n".toList,
          .send "\r\n".toList,
          .send "hello world\n".toList] ∧
    (conn_op.close ∉ [rearm,
          .send "HTTP/1.1 200 OK\r\n".toList,
          .send "Date: Sun, 01 Nov 2026 10:00:00 GMT\r\n".toList,
          .send "Content-Length: 12\r\n".toList,
          .send "Content-Type: text\r\n".toList,
          .send "\r\n".toList,
          .send "hello world\n".toList] ∧
      conn_op.epoll_ctl EPOLL_CTL_MOD (EPOLLIN ||| EPOLLET ||| EPOLLONESHOT) ∈ [rearm,
          .send "HTTP/1.1 200 OK\r\n".toList,
          .send "Date: Sun, 01 Nov 2026 10:00:00 GMT\r\n".toList,
          .send "Content-Length: 12\r\n".toList,
          .send "Content-Type: text\r\n".toList,
          .send "\r\n".toList,
          .send "hello world\n".toList]) :=
  ⟨by decide,
    (C7_close_policy "/srv".toList stale_request 0 [.data full_get]
      sample_env STATUS_OK
      { method := .GET, path := "/srv/index.html".toList, type := .TEXT,
        protocol_version := 1 } _ (by decide)).2.2.1 rfl rfl⟩

/-- Instance of C9: two header lines behind `GET / HTTP/1.0`, LF line ends. -/
theorem C9_headers_skipped_witness :
    '\x00' ∉ "GET / HTTP/1.0\nHost: a\nAccept: */*\n\n".toList ∧
    has_terminator "GET / HTTP/1.0\nHost: a\nAccept: */*\n\n".toList ∧
    parse_request "/srv".toList "GET / HTTP/1.0\nHost: a\nAccept: */*\n\n".toList
      stale_request =
      .done (parse_initial_line "/srv".toList
        ("GET / HTTP/1.0\nHost: a\nAccept: */*\n\n".toList.takeWhile (fun c => !is_eol c))
        stale_request) :=
  ⟨by decide, by decide,
    (C9_headers_skipped "/srv".toList stale_request).1
      "GET / HTTP/1.0\nHost: a\nAccept: */*\n\n".toList (by decide) (by decide)⟩

/-- Instance of C10: `HEAD /nowhere` without version token gives 404. -/
theorem C10_check_order_witness :
    supported_method (first_token "HEAD /nowhere".toList) ∧
    token_at 1 "HEAD /nowhere".toList = some "/nowhere".toList ∧
    ¬ routable_path "/nowhere".toList ∧
    (parse_initial_line "/srv".toList "HEAD /nowhere".toList stale_request).1 =
      STATUS_NOT_FOUND :=
  ⟨by decide, by decide, by decide,
    (C10_check_order "/srv".toList stale_request).2.2.1 "HEAD /nowhere".toList
      "/nowhere".toList (by decide) (by decide) (by decide)⟩

end Httpd
